import Mathlib

/-!
A shallow embedding of the buffering SMTP log handler (`smtpbuflog.py`).

The handler keeps two FIFO queues: the class-level intake queue `_Q`
(filled by `emit`) and the instance-level staging buffer `_q` (filled by
the drain procedure `_move_recordset_from_Q_to_q`).  A background worker
runs `run`, which on a polling cadence decides whether `_SEND_INTERVAL`
has elapsed since `_LAST_SEND_TIME` and, if so, executes one
drain-and-send cycle (`_process_recordset`).  `close` sets the handler
inactive, shrinks `_POLL_DURATION_MAX` and forces one synchronous final
cycle.

Modelling choices:
* queues are Lean lists (front = oldest);
* wall-clock time is an integer number of ticks of 10 ms, threaded
  explicitly through every operation, so the source's float constants
  stay integral: 0.1 s = 10 ticks, 0.25 s = 25, `_POLL_INTERVAL` 5 s =
  500, `_POLL_DURATION_MAX` 10 s = 1000, `_SEND_INTERVAL` 120 s = 12000;
* the initial `_LAST_SEND_TIME = float('-inf')` is `none : Option ℤ`;
* sleeping advances the clock by exactly the requested amount, and the
  non-blocking queue operations take no time;
* the SMTP transport is an external collaborator: each send attempt is
  parameterised by its outcome (success, transport error, or a
  process-level interruption during the transport calls), and a Python
  exception escaping a call is modelled as an explicit `Option Err`
  component of the result.
-/

namespace SMTPBufLog

/-- Exceptions that the core distinguishes: errors raised by the
`smtplib` transport collaborator, and process-level interruption signals
(`KeyboardInterrupt` / `SystemExit`). -/
inductive Err where
  | transport
  | interrupt
  deriving DecidableEq, Repr

/-- Outcome of one attempted transport session (`SMTP(...)`, `starttls`,
`login`, `sendmail`, `quit`), chosen by the environment. -/
inductive SendOutcome where
  | ok
  | transportFail
  | interrupted
  deriving DecidableEq, Repr

/-- One handler instance.  The class-level shared state (`_Q`, `_LOCK`,
`_LAST_SEND_TIME`) is modelled as part of the single instance, which is
exact for a program constructing one handler. -/
structure Handler where
  /-- the class-level intake queue `_Q` (front = oldest) -/
  Q : List String
  /-- the instance-level staging buffer `_q` -/
  q : List String
  /-- `_LAST_SEND_TIME` in ticks; `none` models the initial `float('-inf')` -/
  lastSendTime : Option ℤ
  /-- `_active` -/
  active : Bool
  /-- `_POLL_DURATION_MAX` in ticks (1000 at construction) -/
  pollDurationMax : ℤ
  /-- `_POLL_INTERVAL` in ticks (500) -/
  pollInterval : ℤ
  /-- `_SEND_INTERVAL` in ticks (12000) -/
  sendInterval : ℤ
  /-- `_header['fromaddr']` -/
  fromaddr : String
  /-- `_header['toaddrs']` -/
  toaddrs : List String
  /-- `_header['toaddrs_str']` -/
  toaddrsStr : String
  /-- `_header['subject']` -/
  subject : String
  /-- `_header['header']`, the rendered immutable recipient header text -/
  header : String
  deriving DecidableEq, Repr

/-- State threaded through the drain loop of `_move_recordset_from_Q_to_q`:
the current wall clock together with both queues. -/
structure DrainState where
  now : ℤ
  Q : List String
  q : List String
  deriving DecidableEq, Repr

/-- Fuel bound for the drain loop: how many 0.1 s sleeps (10 ticks) fit
in a time span of `x` ticks, rounded up. -/
def ceilSteps (x : ℤ) : ℕ := (x.toNat + 9) / 10

/-- The `while time.time() < deadline` loop of
`_move_recordset_from_Q_to_q`: a non-blocking pop of `_Q` appends the
record to `_q` and continues immediately; on `Queue.Empty` the loop
breaks if `_q` is empty and otherwise sleeps 0.1 s and retries.  `fuel`
only guarantees termination; the wrapper supplies enough of it that the
loop always ends by its own exit conditions. -/
def moveLoop : ℕ → ℤ → DrainState → DrainState
  | 0, _, s => s
  | fuel + 1, deadline, s =>
    if s.now < deadline then
      match s.Q with
      | r :: rest => moveLoop fuel deadline ⟨s.now, rest, s.q ++ [r]⟩
      | [] =>
        if s.q.isEmpty then s
        else moveLoop fuel deadline ⟨s.now + 10, [], s.q⟩
    else s

/-- `_move_recordset_from_Q_to_q`: move a set of records from the class
queue to the instance queue, bounded by `deadline = time.time() +
self._POLL_DURATION_MAX`.  Returns the updated handler and the clock
when the drain finished. -/
def _move_recordset_from_Q_to_q (h : Handler) (now : ℤ) : Handler × ℤ :=
  let deadline := now + h.pollDurationMax
  let r := moveLoop (h.Q.length + ceilSteps h.pollDurationMax + 1) deadline
      ⟨now, h.Q, h.q⟩
  ({ h with Q := r.Q, q := r.q }, r.now)

/-- `num_pending_messages` as computed inside `_send_records_from_q`:
`self._Q.qsize() + self._q.qsize()`. -/
def numPendingMessages (h : Handler) : ℕ := h.Q.length + h.q.length

/-- The message body built by `_send_records_from_q` from the popped
`records` and the pending count: the included-records count, the pending
count only when it is positive, a blank line, and the records joined by
CRLF. -/
def mkBody (records : List String) (pending : ℕ) : String :=
  "Included messages: " ++ toString records.length ++ "\r\n"
    ++ (if 0 < pending then "Pending messages:  " ++ toString pending ++ "\r\n"
        else "")
    ++ "\r\n" ++ String.intercalate "\r\n" records

/-- Result of `_send_records_from_q`: the handler afterwards, the
complete message handed to `smtplib.sendmail` (when the transport
succeeded), and the exception escaping the call, if any. -/
structure SendResult where
  h : Handler
  msg : Option String
  err : Option Err
  deriving DecidableEq, Repr

/-- `_send_records_from_q`: pop every record of the instance queue into
a local list (the `Queue.Empty` ending that loop is caught), then, if
any records were popped, build the message (header text plus body with
included/pending counts) and run the transport session.  A transport
error or an interruption during the session escapes the function with
the records already popped and not requeued. -/
def _send_records_from_q (o : SendOutcome) (h : Handler) : SendResult :=
  let records := h.q
  let h1 := { h with q := [] }
  if records.isEmpty then ⟨h1, none, none⟩
  else
    let msg := h1.header ++ mkBody records (numPendingMessages h1)
    match o with
    | .ok => ⟨h1, some msg, none⟩
    | .transportFail => ⟨h1, none, some .transport⟩
    | .interrupted => ⟨h1, none, some .interrupt⟩

/-- One successfully dispatched batch: the tick at which it was handed
to the transport, the records it contains, and the full message text. -/
structure Batch where
  time : ℤ
  records : List String
  msg : String
  deriving DecidableEq, Repr

/-- Result of `_process_recordset`: handler and clock afterwards, the
batch dispatched during the cycle (if any), and the exception escaping
the call, if any. -/
structure CycleResult where
  h : Handler
  now : ℤ
  batch : Option Batch
  err : Option Err
  deriving DecidableEq, Repr

/-- `_process_recordset`: drain the class queue into the instance queue;
if the instance queue is non-empty, send its records and set
`_LAST_SEND_TIME = time.time()`.  `KeyboardInterrupt` and `SystemExit`
are caught (`pass`); a transport error is not and escapes. -/
def _process_recordset (o : SendOutcome) (h : Handler) (now : ℤ) : CycleResult :=
  let m := _move_recordset_from_Q_to_q h now
  let h1 := m.1
  let now1 := m.2
  if h1.q.isEmpty then ⟨h1, now1, none, none⟩
  else
    let r := _send_records_from_q o h1
    match r.err with
    | none =>
      ⟨{ r.h with lastSendTime := some now1 }, now1,
        r.msg.map (fun msg => ⟨now1, h1.q, msg⟩), none⟩
    | some .transport => ⟨r.h, now1, none, some .transport⟩
    | some .interrupt => ⟨r.h, now1, none, none⟩

/-- `next_send_time = self._LAST_SEND_TIME + self._SEND_INTERVAL`; with
`_LAST_SEND_TIME = -inf` the sum is `-inf` (`none`). -/
def nextSendTime (h : Handler) : Option ℤ :=
  h.lastSendTime.map (· + h.sendInterval)

/-- The scheduler's guard `time.time() > next_send_time`; `-inf` is
below every clock value. -/
def dueB (now : ℤ) (nst : Option ℤ) : Bool :=
  match nst with
  | none => true
  | some t => t < now

/-- The sleep taken in the scheduler's else-branch,
`max(next_send_time - time.time(), 0)`; with float arithmetic
`max(-inf, 0) = 0`. -/
def sleepFor (now : ℤ) (nst : Option ℤ) : ℤ :=
  match nst with
  | none => 0
  | some t => max (t - now) 0

/-- The whole system: the handler object, the wall clock, the log of
successfully dispatched batches, whether the background worker thread is
still alive (a transport error escaping `run`'s body kills it), and a
ghost counter of records ever enqueued. -/
structure Sys where
  h : Handler
  now : ℤ
  sent : List Batch
  workerAlive : Bool
  enqueued : ℕ
  deriving DecidableEq, Repr

/-- One iteration of the worker loop in `run`, including the trailing
`time.sleep(sleep_time)`.  When the handler is inactive the loop has
exited, and when the worker thread has died nothing runs: both are
no-ops.  A transport error escapes the iteration and terminates the
thread before any sleep. -/
def runIter (o : SendOutcome) (s : Sys) : Sys × Option Err :=
  if s.h.active && s.workerAlive then
    if dueB s.now (nextSendTime s.h) then
      let c := _process_recordset o s.h s.now
      match c.err with
      | some e => ({ s with h := c.h, now := c.now, workerAlive := false }, some e)
      | none =>
        ({ s with
            h := c.h, now := c.now + s.h.pollInterval,
            sent := s.sent ++ c.batch.toList }, none)
    else
      ({ s with now := s.now + sleepFor s.now (nextSendTime s.h) }, none)
  else (s, none)

/-- `close`, run synchronously on the calling thread: set `_active`
false, shrink `_POLL_DURATION_MAX` to `min(0.25, _POLL_DURATION_MAX)`
(25 ticks), then run `_process_recordset` once.  An exception from the
cycle escapes the `close` call itself. -/
def closeStep (o : SendOutcome) (s : Sys) : Sys × Option Err :=
  let h0 := { s.h with
              active := false,
              pollDurationMax := min 25 s.h.pollDurationMax }
  let c := _process_recordset o h0 s.now
  match c.err with
  | some e => ({ s with h := c.h, now := c.now }, some e)
  | none => ({ s with h := c.h, now := c.now, sent := s.sent ++ c.batch.toList }, none)

/-- The operations the environment can interleave on one handler:
a producer calling `emit` with an already-formatted record, one worker
iteration with a given transport outcome, a `close` call, the wall clock
advancing while nothing runs, and a `state()` call. -/
inductive Op where
  | emit (r : String)
  | runIter (o : SendOutcome)
  | close (o : SendOutcome)
  | advance (d : ℤ)
  | stateCall
  deriving DecidableEq, Repr

/-- One environment step.  `emit` appends the formatted record to `_Q`
from any thread; `advance` moves the clock forward (never backward). -/
def step : Op → Sys → Sys × Option Err
  | .emit r, s =>
    ({ s with h := { s.h with Q := s.h.Q ++ [r] }, enqueued := s.enqueued + 1 }, none)
  | .runIter o, s => runIter o s
  | .close o, s => closeStep o s
  | .advance d, s => ({ s with now := s.now + max d 0 }, none)
  | .stateCall, s => (s, none)

/-- Execute a list of operations, left to right. -/
def exec (ops : List Op) (s : Sys) : Sys :=
  ops.foldl (fun acc op => (step op acc).1) s

/-- The diagnostic snapshot returned by `state()`, with the purely
cosmetic string formatting stripped to the underlying values. -/
structure StateReport where
  /-- 'Total number of unprocessed errors': `_Q.qsize() + _q.qsize()` -/
  numUnprocessed : ℕ
  /-- the configured poll and send intervals -/
  intervals : ℤ × ℤ
  /-- 'Poll duration max' -/
  pollDurationMax : ℤ
  /-- 'Time since last email'; `none` renders as '(none sent yet)' -/
  timeSinceLast : Option ℤ
  /-- 'Time to next earliest possible email' -/
  timeUntilNext : ℤ
  /-- 'Recipients': `_header['toaddrs_str']` -/
  recipients : String
  deriving DecidableEq, Repr

/-- `state()`: a read-only snapshot of the handler. -/
def state (s : Sys) : StateReport :=
  { numUnprocessed := s.h.Q.length + s.h.q.length
    intervals := (s.h.pollInterval, s.h.sendInterval)
    pollDurationMax := s.h.pollDurationMax
    timeSinceLast := s.h.lastSendTime.map (s.now - ·)
    timeUntilNext :=
      match s.h.lastSendTime with
      | none => 0
      | some t => max s.now (t + s.h.sendInterval) - s.now
    recipients := s.h.toaddrsStr }

/-- `__init__`: a fresh handler with the configured addresses and the
class-level constants; both queues start empty and no send has
happened. -/
def mkHandler (fromaddr : String) (toaddrs : List String) (subject : String) :
    Handler :=
  let toaddrsStr := String.intercalate "," toaddrs
  { Q := [], q := [], lastSendTime := none, active := true,
    pollDurationMax := 1000, pollInterval := 500, sendInterval := 12000,
    fromaddr, toaddrs, toaddrsStr, subject,
    header := "From: " ++ fromaddr ++ "\r\nTo: " ++ toaddrsStr
      ++ "\r\nSubject: " ++ subject ++ "\r\n\r\n" }

/-- A freshly constructed system at clock `t0`: nothing sent, worker
thread just started. -/
def initSys (h : Handler) (t0 : ℤ) : Sys :=
  { h, now := t0, sent := [], workerAlive := true, enqueued := 0 }

/-- The handler used for concrete runs below. -/
def h0 : Handler := mkHandler "from@example.com" ["to@example.com"] "subj"

/-- Order on `Option ℤ` with `none` (the initial `float('-inf')`) below
everything: `optLEb a b` says the timestamp `a` is no later than `b`. -/
def optLEb (a b : Option ℤ) : Bool :=
  match a, b with
  | none, _ => true
  | some _, none => false
  | some x, some y => x ≤ y

/-- Basic well-formedness of a system state, established at construction
and preserved by every operation: `_LAST_SEND_TIME` never lies in the
future, and the configured intervals are sensible (`time.sleep` would
reject a negative duration; the drain window is positive). -/
def sysWF (s : Sys) : Prop :=
  (∀ t, s.h.lastSendTime = some t → t ≤ s.now) ∧
  0 ≤ s.h.pollInterval ∧ 0 < s.h.pollDurationMax

/-- Number of records contained in successfully dispatched batches. -/
def dispatchedCount (s : Sys) : ℕ :=
  (s.sent.map (fun b => b.records.length)).sum

/-- An operation whose send attempts (if any) succeed. -/
def cleanOp : Op → Bool
  | .runIter o => o = .ok
  | .close o => o = .ok
  | _ => true

/-- Whether `pat` is an initial segment of `s` (character lists). -/
def startsWithSeq : List Char → List Char → Bool
  | [], _ => true
  | _ :: _, [] => false
  | p :: ps, c :: cs => decide (p = c) && startsWithSeq ps cs

/-- Whether the character sequence `pat` occurs anywhere inside `s`;
used to check for the presence of a line in a built message. -/
def occursIn (pat : List Char) : List Char → Bool
  | [] => startsWithSeq pat []
  | c :: cs => startsWithSeq pat (c :: cs) || occursIn pat cs

/-- The twelve records of the shutdown scenario of the spec. -/
def scenarioRecords : List String :=
  ["r01", "r02", "r03", "r04", "r05", "r06", "r07", "r08", "r09", "r10",
   "r11", "r12"]

/-- The shutdown scenario: the worker wakes once right after
construction (and finds nothing), twelve records are enqueued, less than
one poll interval passes (1 s), and the handler is shut down. -/
def scenarioOps : List Op :=
  [.runIter .ok] ++ scenarioRecords.map Op.emit ++ [.advance 100, .close .ok]

/-- A sample reachable state used to witness the general theorems: one
record has been enqueued on a fresh handler. -/
def sampleSys : Sys :=
  { h := { h0 with Q := ["a"] }, now := 0, sent := [], workerAlive := true,
    enqueued := 1 }

/-- A sample state whose last dispatch happened at tick 0, observed at
tick 100: the next send is not yet due. -/
def sampleLate : Sys :=
  { h := { h0 with lastSendTime := some 0 }, now := 100, sent := [],
    workerAlive := true, enqueued := 0 }

/-! ## Helper lemmas about the drain loop -/

/-- The drain loop never moves the clock backwards. -/
theorem moveLoop_now_mono (fuel : ℕ) (d : ℤ) (s : DrainState) :
    s.now ≤ (moveLoop fuel d s).now := by
  induction fuel generalizing s with
  | zero => exact le_refl _
  | succ fuel ih =>
    show s.now ≤ (moveLoop (fuel + 1) d s).now
    rw [moveLoop]
    split
    · cases hQ : s.Q with
      | cons r rest => exact ih ⟨s.now, rest, s.q ++ [r]⟩
      | nil =>
        simp only
        split
        · exact le_refl _
        · exact le_trans (by omega : s.now ≤ s.now + 10) (ih ⟨s.now + 10, [], s.q⟩)
    · exact le_refl _

/-- The drain loop neither loses, duplicates nor reorders records: the
staging buffer followed by what remains of the intake queue is always
the original staging buffer followed by the original intake queue. -/
theorem moveLoop_records (fuel : ℕ) (d : ℤ) (s : DrainState) :
    (moveLoop fuel d s).q ++ (moveLoop fuel d s).Q = s.q ++ s.Q := by
  induction fuel generalizing s with
  | zero => rfl
  | succ fuel ih =>
    show (moveLoop (fuel + 1) d s).q ++ (moveLoop (fuel + 1) d s).Q = _
    rw [moveLoop]
    split
    · cases hQ : s.Q with
      | cons r rest =>
        have := ih ⟨s.now, rest, s.q ++ [r]⟩
        simpa [List.append_assoc] using this
      | nil =>
        simp only
        split
        · simp [hQ]
        · simpa [hQ] using ih ⟨s.now + 10, [], s.q⟩
    · rfl

/-- With enough fuel the drain loop runs to one of its own exit
conditions, and then the intake queue has been completely emptied
(provided the loop was entered at all: the clock starts before the
deadline, or the intake queue was already empty). -/
theorem moveLoop_drained (fuel : ℕ) (d : ℤ) (s : DrainState)
    (hf : s.Q.length + ceilSteps (d - s.now) ≤ fuel)
    (hstart : s.now < d ∨ s.Q = []) :
    (moveLoop fuel d s).Q = [] := by
  induction fuel generalizing s with
  | zero =>
    have hQ : s.Q = [] := by
      have := hf
      unfold ceilSteps at this
      exact List.length_eq_zero.mp (by omega)
    simpa [moveLoop] using hQ
  | succ fuel ih =>
    show (moveLoop (fuel + 1) d s).Q = []
    rw [moveLoop]
    split
    · cases hQ : s.Q with
      | cons r rest =>
        refine ih ⟨s.now, rest, s.q ++ [r]⟩ ?_ (Or.inl (by assumption))
        show rest.length + ceilSteps (d - s.now) ≤ fuel
        have : s.Q.length = rest.length + 1 := by rw [hQ]; simp
        omega
      | nil =>
        simp only
        split
        · simpa using hQ
        · rename_i hlt _
          refine ih ⟨s.now + 10, [], s.q⟩ ?_ (Or.inr rfl)
          show ([] : List String).length + ceilSteps (d - (s.now + 10)) ≤ fuel
          have hc : ceilSteps (d - (s.now + 10)) + 1 ≤ ceilSteps (d - s.now) := by
            unfold ceilSteps
            omega
          have : s.Q.length = 0 := by rw [hQ]; rfl
          simp only [List.length_nil]
          omega
    · rename_i hge
      rcases hstart with hlt | hQ
      · exact absurd hlt hge
      · simpa using hQ

/-- The fields of the handler other than the two queues are untouched by
the drain procedure. -/
theorem move_fields (h : Handler) (now : ℤ) :
    (_move_recordset_from_Q_to_q h now).1.lastSendTime = h.lastSendTime ∧
    (_move_recordset_from_Q_to_q h now).1.active = h.active ∧
    (_move_recordset_from_Q_to_q h now).1.pollDurationMax = h.pollDurationMax ∧
    (_move_recordset_from_Q_to_q h now).1.pollInterval = h.pollInterval ∧
    (_move_recordset_from_Q_to_q h now).1.sendInterval = h.sendInterval ∧
    (_move_recordset_from_Q_to_q h now).1.header = h.header :=
  ⟨rfl, rfl, rfl, rfl, rfl, rfl⟩

/-- The drain procedure finishes no earlier than it started. -/
theorem move_now_mono (h : Handler) (now : ℤ) :
    now ≤ (_move_recordset_from_Q_to_q h now).2 :=
  moveLoop_now_mono _ _ _

/-- Complete characterisation of the drain procedure when its window is
positive (or the intake queue empty): the intake queue is emptied into
the staging buffer, behind the staging buffer's existing records. -/
theorem move_drains (h : Handler) (now : ℤ)
    (hd : 0 < h.pollDurationMax ∨ h.Q = []) :
    ∃ now1, now ≤ now1 ∧
      _move_recordset_from_Q_to_q h now =
        ({ h with Q := [], q := h.q ++ h.Q }, now1) := by
  refine ⟨(_move_recordset_from_Q_to_q h now).2, move_now_mono h now, ?_⟩
  have hfuel : (⟨now, h.Q, h.q⟩ : DrainState).Q.length
      + ceilSteps (now + h.pollDurationMax - (⟨now, h.Q, h.q⟩ : DrainState).now)
      ≤ h.Q.length + ceilSteps h.pollDurationMax + 1 := by
    simp only
    have : now + h.pollDurationMax - now = h.pollDurationMax := by ring
    rw [this]
    omega
  have hstart : (⟨now, h.Q, h.q⟩ : DrainState).now < now + h.pollDurationMax
      ∨ (⟨now, h.Q, h.q⟩ : DrainState).Q = [] := by
    rcases hd with hd | hd
    · exact Or.inl (by simp only; omega)
    · exact Or.inr hd
  have hQ' := moveLoop_drained (h.Q.length + ceilSteps h.pollDurationMax + 1)
      (now + h.pollDurationMax) ⟨now, h.Q, h.q⟩ hfuel hstart
  have hrec := moveLoop_records (h.Q.length + ceilSteps h.pollDurationMax + 1)
      (now + h.pollDurationMax) ⟨now, h.Q, h.q⟩
  rw [hQ'] at hrec
  simp only [List.append_nil] at hrec
  show ({ h with
          Q := (moveLoop _ _ _).Q, q := (moveLoop _ _ _).q }, (moveLoop _ _ _).now)
      = _
  rw [hQ', hrec]
  rfl

/-- With both queues empty the drain loop exits as soon as it is
entered, without sleeping. -/
theorem moveLoop_idle (fuel : ℕ) (d : ℤ) (n : ℤ) :
    moveLoop fuel d ⟨n, [], []⟩ = ⟨n, [], []⟩ := by
  cases fuel with
  | zero => rfl
  | succ fuel =>
    rw [moveLoop]
    split
    · rfl
    · rfl

/-! ## Helper lemmas about one drain-and-send cycle -/

/-- An empty-batch cycle is a no-op: with both queues empty,
`_process_recordset` drains nothing, skips the transport, leaves
`_LAST_SEND_TIME` alone and consumes no time. -/
theorem process_nothing (o : SendOutcome) (h : Handler) (now : ℤ)
    (hQ : h.Q = []) (hq : h.q = []) :
    _process_recordset o h now = ⟨h, now, none, none⟩ := by
  cases h with
  | mk Q q last act pdm pi si fa ta tas subj hdr =>
    simp only at hQ hq
    subst hQ
    subst hq
    simp [_process_recordset, _move_recordset_from_Q_to_q, moveLoop_idle]

/-- A successful drain-and-send cycle over a non-empty pair of queues:
every record of both queues goes into exactly one dispatched batch, in
order, the header text is extended with the body (whose pending count is
zero, both queues now being drained), and `_LAST_SEND_TIME` becomes the
dispatch time. -/
theorem process_ok (h : Handler) (now : ℤ)
    (hd : 0 < h.pollDurationMax ∨ h.Q = []) (hne : h.q ++ h.Q ≠ []) :
    ∃ now1, now ≤ now1 ∧
      _process_recordset .ok h now =
        ⟨{ h with Q := [], q := [], lastSendTime := some now1 }, now1,
          some ⟨now1, h.q ++ h.Q, h.header ++ mkBody (h.q ++ h.Q) 0⟩, none⟩ := by
  obtain ⟨now1, hle, hm⟩ := move_drains h now hd
  refine ⟨now1, hle, ?_⟩
  unfold _process_recordset
  rw [hm]
  simp [_send_records_from_q, numPendingMessages, List.isEmpty_iff, hne]

/-- A drain-and-send cycle whose transport session fails: the records of
both queues have been popped and are gone (not requeued), nothing is
dispatched, `_LAST_SEND_TIME` is untouched, and the transport error
escapes the cycle. -/
theorem process_transportFail (h : Handler) (now : ℤ)
    (hd : 0 < h.pollDurationMax ∨ h.Q = []) (hne : h.q ++ h.Q ≠ []) :
    ∃ now1, now ≤ now1 ∧
      _process_recordset .transportFail h now =
        ⟨{ h with Q := [], q := [] }, now1, none, some .transport⟩ := by
  obtain ⟨now1, hle, hm⟩ := move_drains h now hd
  refine ⟨now1, hle, ?_⟩
  unfold _process_recordset
  rw [hm]
  simp [_send_records_from_q, List.isEmpty_iff, hne]

/-- A drain-and-send cycle interrupted by a process-level signal during
the transport session: the records are likewise gone, nothing is
dispatched and `_LAST_SEND_TIME` is untouched, but the signal is caught
and nothing escapes the cycle. -/
theorem process_interrupted (h : Handler) (now : ℤ)
    (hd : 0 < h.pollDurationMax ∨ h.Q = []) (hne : h.q ++ h.Q ≠ []) :
    ∃ now1, now ≤ now1 ∧
      _process_recordset .interrupted h now =
        ⟨{ h with Q := [], q := [] }, now1, none, none⟩ := by
  obtain ⟨now1, hle, hm⟩ := move_drains h now hd
  refine ⟨now1, hle, ?_⟩
  unfold _process_recordset
  rw [hm]
  simp [_send_records_from_q, List.isEmpty_iff, hne]

/-- A cycle whose transport succeeds never lets an exception escape. -/
theorem send_ok_no_err (h : Handler) :
    (_send_records_from_q .ok h).err = none := by
  by_cases hq : h.q.isEmpty <;> simp [_send_records_from_q, hq]

theorem process_ok_no_err (h : Handler) (now : ℤ) :
    (_process_recordset .ok h now).err = none := by
  unfold _process_recordset
  simp only
  split
  · rfl
  · rw [send_ok_no_err]

/-- Any batch produced by a cycle is dispatched no earlier than the
cycle started, and is non-empty. -/
theorem process_batch_time (o : SendOutcome) (h : Handler) (now : ℤ)
    (b : Batch) (hb : (_process_recordset o h now).batch = some b) :
    now ≤ b.time ∧ b.records ≠ [] := by
  unfold _process_recordset at hb
  simp only at hb
  split at hb
  · simp at hb
  · rename_i hq
    split at hb
    · simp only [Option.map_eq_some'] at hb
      obtain ⟨msg, hmsg, hbeq⟩ := hb
      constructor
      · rw [← hbeq]
        exact move_now_mono h now
      · rw [← hbeq]
        simp only [ne_eq]
        intro hnil
        simp [hnil] at hq
    · simp at hb
    · simp at hb

/-- Full case analysis of one drain-and-send cycle with a positive drain
window, by transport outcome. -/
theorem process_characterization (o : SendOutcome) (h : Handler) (now : ℤ)
    (hd : 0 < h.pollDurationMax) :
    (h.q ++ h.Q = [] ∧ _process_recordset o h now = ⟨h, now, none, none⟩) ∨
    (h.q ++ h.Q ≠ [] ∧ ∃ now1, now ≤ now1 ∧
      ((o = .ok ∧ _process_recordset o h now =
          ⟨{ h with Q := [], q := [], lastSendTime := some now1 }, now1,
            some ⟨now1, h.q ++ h.Q, h.header ++ mkBody (h.q ++ h.Q) 0⟩, none⟩) ∨
       (o = .transportFail ∧ _process_recordset o h now =
          ⟨{ h with Q := [], q := [] }, now1, none, some .transport⟩) ∨
       (o = .interrupted ∧ _process_recordset o h now =
          ⟨{ h with Q := [], q := [] }, now1, none, none⟩))) := by
  by_cases hne : h.q ++ h.Q = []
  · left
    obtain ⟨hq, hQ⟩ := List.append_eq_nil.mp hne
    exact ⟨hne, process_nothing o h now hQ hq⟩
  · right
    refine ⟨hne, ?_⟩
    cases o with
    | ok =>
      obtain ⟨now1, hle, heq⟩ := process_ok h now (Or.inl hd) hne
      exact ⟨now1, hle, Or.inl ⟨rfl, heq⟩⟩
    | transportFail =>
      obtain ⟨now1, hle, heq⟩ := process_transportFail h now (Or.inl hd) hne
      exact ⟨now1, hle, Or.inr (Or.inl ⟨rfl, heq⟩)⟩
    | interrupted =>
      obtain ⟨now1, hle, heq⟩ := process_interrupted h now (Or.inl hd) hne
      exact ⟨now1, hle, Or.inr (Or.inr ⟨rfl, heq⟩)⟩

/-! ## System-level invariants -/

theorem optLEb_refl (a : Option ℤ) : optLEb a a = true := by
  cases a with
  | none => rfl
  | some t => simp [optLEb]

theorem optLEb_of_le (a : Option ℤ) (u : ℤ)
    (h : ∀ t, a = some t → t ≤ u) : optLEb a (some u) = true := by
  cases a with
  | none => rfl
  | some t => simpa [optLEb] using h t rfl

theorem sleepFor_nonneg (now : ℤ) (nst : Option ℤ) : 0 ≤ sleepFor now nst := by
  cases nst with
  | none => exact le_refl 0
  | some t => exact le_max_right _ _

/-- The heart of the timestamp discipline: every single operation
preserves well-formedness, never moves the clock backwards, and either
leaves `_LAST_SEND_TIME` and the dispatch log alone or appends exactly
one non-empty batch to the log and sets `_LAST_SEND_TIME` to its
dispatch time; in both cases the timestamp never decreases. -/
theorem step_cases (op : Op) (s : Sys) (hwf : sysWF s) :
    sysWF (step op s).1 ∧ s.now ≤ (step op s).1.now ∧
    (((step op s).1.h.lastSendTime = s.h.lastSendTime ∧ (step op s).1.sent = s.sent) ∨
      ∃ b, (step op s).1.sent = s.sent ++ [b] ∧ b.records ≠ [] ∧
        (step op s).1.h.lastSendTime = some b.time ∧ s.now ≤ b.time) ∧
    optLEb s.h.lastSendTime (step op s).1.h.lastSendTime = true := by
  obtain ⟨hlast, hpi, hpd⟩ := hwf
  cases op with
  | emit r =>
    exact ⟨⟨hlast, hpi, hpd⟩, le_refl _, Or.inl ⟨rfl, rfl⟩, optLEb_refl _⟩
  | advance d =>
    have hle : s.now ≤ s.now + max d 0 := le_add_of_nonneg_right (le_max_right _ _)
    exact ⟨⟨fun t ht => (hlast t ht).trans hle, hpi, hpd⟩, hle,
      Or.inl ⟨rfl, rfl⟩, optLEb_refl _⟩
  | stateCall =>
    exact ⟨⟨hlast, hpi, hpd⟩, le_refl _, Or.inl ⟨rfl, rfl⟩, optLEb_refl _⟩
  | runIter o =>
    simp only [step, runIter]
    split
    · split
      · rcases process_characterization o s.h s.now hpd with
          ⟨hnil, heq⟩ | ⟨hne, now1, hle1, hcase⟩
        · rw [heq]
          dsimp only [Option.toList]
          refine ⟨⟨fun t ht => (hlast t ht).trans (by (try dsimp only); omega), hpi, hpd⟩,
            by (try dsimp only); omega, Or.inl ⟨rfl, by simp⟩, optLEb_refl _⟩
        · rcases hcase with ⟨ho, heq⟩ | ⟨ho, heq⟩ | ⟨ho, heq⟩ <;> subst ho <;> rw [heq] <;>
            dsimp only [Option.toList]
          · refine ⟨⟨?_, hpi, hpd⟩, by (try dsimp only); omega, Or.inr ⟨_, rfl, hne, rfl, hle1⟩, ?_⟩
            · intro t ht
              simp only [Option.some.injEq] at ht
              (try dsimp only); omega
            · exact optLEb_of_le _ _ (fun t ht => (hlast t ht).trans hle1)
          · exact ⟨⟨fun t ht => (hlast t ht).trans hle1, hpi, hpd⟩, by (try dsimp only); omega,
              Or.inl ⟨rfl, rfl⟩, optLEb_refl _⟩
          · refine ⟨⟨fun t ht => (hlast t ht).trans (by (try dsimp only); omega), hpi, hpd⟩,
              by (try dsimp only); omega, Or.inl ⟨rfl, by simp⟩, optLEb_refl _⟩
      · have hs := sleepFor_nonneg s.now (nextSendTime s.h)
        exact ⟨⟨fun t ht => (hlast t ht).trans (by (try dsimp only); omega), hpi, hpd⟩,
          by (try dsimp only); omega, Or.inl ⟨rfl, rfl⟩, optLEb_refl _⟩
    · exact ⟨⟨hlast, hpi, hpd⟩, le_refl _, Or.inl ⟨rfl, rfl⟩, optLEb_refl _⟩
  | close o =>
    simp only [step, closeStep]
    have hpd' : 0 < min 25 s.h.pollDurationMax := lt_min (by norm_num) hpd
    rcases process_characterization o
        { s.h with active := false, pollDurationMax := min 25 s.h.pollDurationMax }
        s.now hpd' with ⟨hnil, heq⟩ | ⟨hne, now1, hle1, hcase⟩
    · rw [heq]
      dsimp only [Option.toList]
      exact ⟨⟨hlast, hpi, hpd'⟩, le_refl _, Or.inl ⟨rfl, by simp⟩, optLEb_refl _⟩
    · rcases hcase with ⟨ho, heq⟩ | ⟨ho, heq⟩ | ⟨ho, heq⟩ <;> subst ho <;> rw [heq] <;>
        dsimp only [Option.toList]
      · refine ⟨⟨?_, hpi, hpd'⟩, by (try dsimp only); omega, Or.inr ⟨_, rfl, hne, rfl, hle1⟩, ?_⟩
        · intro t ht
          simp only [Option.some.injEq] at ht
          (try dsimp only); omega
        · exact optLEb_of_le _ _ (fun t ht => (hlast t ht).trans hle1)
      · exact ⟨⟨fun t ht => (hlast t ht).trans hle1, hpi, hpd'⟩, by (try dsimp only); omega,
          Or.inl ⟨rfl, rfl⟩, optLEb_refl _⟩
      · exact ⟨⟨fun t ht => (hlast t ht).trans hle1, hpi, hpd'⟩, by (try dsimp only); omega,
          Or.inl ⟨rfl, by simp⟩, optLEb_refl _⟩

theorem optLEb_trans (a b c : Option ℤ) (h1 : optLEb a b = true)
    (h2 : optLEb b c = true) : optLEb a c = true := by
  cases a <;> cases b <;> cases c <;> simp_all [optLEb] <;> omega

/-- Well-formedness and timestamp monotonicity extend to whole
executions. -/
theorem exec_wf_mono : ∀ (ops : List Op) (s : Sys), sysWF s →
    sysWF (exec ops s) ∧ optLEb s.h.lastSendTime (exec ops s).h.lastSendTime = true
  | [], _, hwf => ⟨hwf, optLEb_refl _⟩
  | op :: ops, s, hwf => by
    have h1 := step_cases op s hwf
    have h2 := exec_wf_mono ops (step op s).1 h1.1
    exact ⟨h2.1, optLEb_trans _ _ _ h1.2.2.2 h2.2⟩

/-- The drain procedure, seen through its wrapper, conserves records. -/
theorem move_records (h : Handler) (now : ℤ) :
    (_move_recordset_from_Q_to_q h now).1.q ++ (_move_recordset_from_Q_to_q h now).1.Q
      = h.q ++ h.Q := by
  unfold _move_recordset_from_Q_to_q
  exact moveLoop_records _ _ _

/-- One clean operation (no failing send attempt) conserves records:
queued plus dispatched equals enqueued, before and after. -/
theorem step_conservation (op : Op) (s : Sys) (hclean : cleanOp op = true)
    (hwf : sysWF s)
    (hinv : s.h.Q.length + s.h.q.length + dispatchedCount s = s.enqueued) :
    (step op s).1.h.Q.length + (step op s).1.h.q.length
      + dispatchedCount (step op s).1 = (step op s).1.enqueued := by
  cases op with
  | emit r =>
    simp only [step]
    simp only [dispatchedCount] at hinv ⊢
    simp only [List.length_append, List.length_cons, List.length_nil]
    omega
  | advance d => exact hinv
  | stateCall => exact hinv
  | runIter o =>
    have ho : o = .ok := by
      cases o <;> simp_all [cleanOp]
    subst ho
    simp only [step, runIter]
    split
    · split
      · rcases process_characterization .ok s.h s.now hwf.2.2 with
          ⟨hnil, heq⟩ | ⟨hne, now1, hle1, hcase⟩
        · rw [heq]
          dsimp only [Option.toList]
          simpa [dispatchedCount] using hinv
        · rcases hcase with ⟨_, heq⟩ | ⟨hbad, _⟩ | ⟨hbad, _⟩
          · rw [heq]
            dsimp only [Option.toList]
            simp only [dispatchedCount, List.map_append, List.sum_append,
              List.map_cons, List.map_nil, List.sum_cons, List.sum_nil,
              List.length_nil, List.length_append] at hinv ⊢
            omega
          · exact absurd hbad (by simp)
          · exact absurd hbad (by simp)
      · exact hinv
    · exact hinv
  | close o =>
    have ho : o = .ok := by
      cases o <;> simp_all [cleanOp]
    subst ho
    simp only [step, closeStep]
    rcases process_characterization .ok
        { s.h with active := false, pollDurationMax := min 25 s.h.pollDurationMax }
        s.now (lt_min (by norm_num) hwf.2.2) with
      ⟨hnil, heq⟩ | ⟨hne, now1, hle1, hcase⟩
    · rw [heq]
      dsimp only [Option.toList]
      simpa [dispatchedCount] using hinv
    · rcases hcase with ⟨_, heq⟩ | ⟨hbad, _⟩ | ⟨hbad, _⟩
      · rw [heq]
        dsimp only [Option.toList]
        simp only [dispatchedCount, List.map_append, List.sum_append,
          List.map_cons, List.map_nil, List.sum_cons, List.sum_nil,
          List.length_nil, List.length_append] at hinv ⊢
        omega
      · exact absurd hbad (by simp)
      · exact absurd hbad (by simp)

/-- Record conservation over a clean execution. -/
theorem exec_conservation : ∀ (ops : List Op) (s : Sys),
    (∀ op ∈ ops, cleanOp op = true) → sysWF s →
    s.h.Q.length + s.h.q.length + dispatchedCount s = s.enqueued →
    (exec ops s).h.Q.length + (exec ops s).h.q.length + dispatchedCount (exec ops s)
      = (exec ops s).enqueued
  | [], _, _, _, hinv => hinv
  | op :: ops, s, hops, hwf, hinv =>
    exec_conservation ops (step op s).1 (fun o ho => hops o (List.mem_cons_of_mem _ ho))
      (step_cases op s hwf).1
      (step_conservation op s (hops op (List.mem_cons_self op ops)) hwf hinv)

/-- Executions that never call `emit` keep both queues empty, dispatch
nothing, and leave `_LAST_SEND_TIME` untouched. -/
theorem exec_no_emit : ∀ (ops : List Op) (s : Sys),
    (∀ r, Op.emit r ∉ ops) →
    s.h.Q = [] → s.h.q = [] →
    (exec ops s).h.Q = [] ∧ (exec ops s).h.q = [] ∧
    (exec ops s).sent = s.sent ∧ (exec ops s).h.lastSendTime = s.h.lastSendTime
  | [], _, _, hQ, hq => ⟨hQ, hq, rfl, rfl⟩
  | op :: ops, s, hops, hQ, hq => by
    have hstep : (step op s).1.h.Q = [] ∧ (step op s).1.h.q = [] ∧
        (step op s).1.sent = s.sent ∧
        (step op s).1.h.lastSendTime = s.h.lastSendTime := by
      cases op with
      | emit r => exact absurd (List.mem_cons_self _ _) (hops r)
      | advance d => exact ⟨hQ, hq, rfl, rfl⟩
      | stateCall => exact ⟨hQ, hq, rfl, rfl⟩
      | runIter o =>
        simp only [step, runIter]
        split
        · split
          · rw [process_nothing o s.h s.now hQ hq]
            dsimp only [Option.toList]
            exact ⟨hQ, hq, by simp, rfl⟩
          · exact ⟨hQ, hq, rfl, rfl⟩
        · exact ⟨hQ, hq, rfl, rfl⟩
      | close o =>
        simp only [step, closeStep]
        rw [process_nothing o
          { s.h with active := false, pollDurationMax := min 25 s.h.pollDurationMax }
          s.now hQ hq]
        dsimp only [Option.toList]
        exact ⟨hQ, hq, by simp, rfl⟩
    have hrest := exec_no_emit ops (step op s).1
      (fun r hr => hops r (List.mem_cons_of_mem _ hr)) hstep.1 hstep.2.1
    exact ⟨hrest.1, hrest.2.1, hrest.2.2.1.trans hstep.2.2.1,
      hrest.2.2.2.trans hstep.2.2.2⟩

/-! ## Claims -/

/-- Claim C1, amended: in each iteration of the drain loop, once the
deadline has passed the loop exits; while the deadline has not passed, a
successful non-blocking pop moves the record into the staging buffer and
continues immediately, and when the pop finds the intake queue empty the
loop stops if the staging buffer is EMPTY, while with a NON-EMPTY
staging buffer it sleeps 0.1 s (10 ticks) and retries until the
deadline.  (The claim as frozen has the two empty-pop outcomes swapped:
the code keeps polling while a batch is ready, and returns at once when
nothing at all has arrived.) -/
theorem drain_empty_pop_discipline (fuel : ℕ) (d : ℤ) (s : DrainState) :
    (d ≤ s.now → moveLoop (fuel + 1) d s = s) ∧
    (s.now < d → s.Q = [] → s.q = [] → moveLoop (fuel + 1) d s = s) ∧
    (s.now < d → s.Q = [] → s.q ≠ [] →
      moveLoop (fuel + 1) d s = moveLoop fuel d ⟨s.now + 10, [], s.q⟩) ∧
    (∀ r rest, s.now < d → s.Q = r :: rest →
      moveLoop (fuel + 1) d s = moveLoop fuel d ⟨s.now, rest, s.q ++ [r]⟩) := by
  refine ⟨fun hge => ?_, fun hlt hQ hq => ?_, fun hlt hQ hq => ?_,
    fun r rest hlt hQ => ?_⟩
  · rw [moveLoop, if_neg (by omega)]
  · rw [moveLoop, if_pos hlt, hQ]
    simp [hq]
  · rw [moveLoop, if_pos hlt, hQ]
    simp [List.isEmpty_iff, hq]
  · rw [moveLoop, if_pos hlt, hQ]

/-- Witness for C1's amended theorem at concrete inputs. -/
theorem drain_empty_pop_discipline_witness :
    moveLoop 1 0 ⟨0, [], ["r"]⟩ = ⟨0, [], ["r"]⟩ ∧
    moveLoop 1 1 ⟨0, [], []⟩ = ⟨0, [], []⟩ ∧
    moveLoop 1 1 ⟨0, [], ["r"]⟩ = moveLoop 0 1 ⟨0 + 10, [], ["r"]⟩ ∧
    moveLoop 1 1 ⟨0, ["r"], []⟩ = moveLoop 0 1 ⟨0, [], [] ++ ["r"]⟩ :=
  ⟨(drain_empty_pop_discipline 0 0 ⟨0, [], ["r"]⟩).1 (by decide),
   (drain_empty_pop_discipline 0 1 ⟨0, [], []⟩).2.1 (by decide) rfl rfl,
   (drain_empty_pop_discipline 0 1 ⟨0, [], ["r"]⟩).2.2.1 (by decide) rfl (by decide),
   (drain_empty_pop_discipline 0 1 ⟨0, ["r"], []⟩).2.2.2 "r" [] (by decide) rfl⟩

/-- Claim C1, counterexample to the claim as frozen: with one record
available the loop finishes its pop at tick 0 and then observes an empty
pop with a non-empty staging buffer; the claim says the drain stops
there (a batch is ready), but the code keeps sleeping in 0.1 s steps
until the 10 s deadline, returning only at tick 1000.  Conversely, with
both queues empty the claim says the loop sleeps and retries until the
deadline, but the code returns immediately, at tick 0. -/
theorem drain_early_exit_refuted :
    (_move_recordset_from_Q_to_q { h0 with Q := ["a"] } 0).2 = 1000 ∧
    (_move_recordset_from_Q_to_q { h0 with Q := ["a"] } 0).1.q = ["a"] ∧
    (_move_recordset_from_Q_to_q h0 0).2 = 0 :=
  ⟨by decide, by decide, by decide⟩

/-- Claim C10: the pending count is computed only after the staging
buffer has been fully drained into the local records list; at that point
the staging buffer contributes zero, so the count handed to the body
equals the intake-queue size at message-composition time. -/
theorem pending_count_after_staging_drain (h : Handler) (hne : h.q ≠ []) :
    numPendingMessages { h with q := [] } = h.Q.length ∧
    (_send_records_from_q .ok h).msg = some (h.header ++ mkBody h.q h.Q.length) := by
  constructor
  · simp [numPendingMessages]
  · unfold _send_records_from_q
    rw [if_neg (by simpa [List.isEmpty_iff] using hne)]
    simp [numPendingMessages]

/-- Witness for C10 at a concrete handler with one staged and one
still-queued record. -/
theorem pending_count_after_staging_drain_witness :
    numPendingMessages { { h0 with Q := ["y"], q := ["x"] } with q := [] } =
      ({ h0 with Q := ["y"], q := ["x"] } : Handler).Q.length ∧
    (_send_records_from_q .ok { h0 with Q := ["y"], q := ["x"] }).msg =
      some (({ h0 with Q := ["y"], q := ["x"] } : Handler).header
        ++ mkBody ["x"] (["y"] : List String).length) :=
  pending_count_after_staging_drain { h0 with Q := ["y"], q := ["x"] } (by decide)

/-- Claim C7: a drain-and-send cycle that finds nothing skips the
transport entirely and leaves `_LAST_SEND_TIME` unchanged, and an
execution that never enqueues anything never dispatches and keeps
`_LAST_SEND_TIME` at its '-inf' initial value. -/
theorem no_dispatch_without_records :
    (∀ (o : SendOutcome) (h : Handler) (now : ℤ), h.Q = [] → h.q = [] →
      _process_recordset o h now = ⟨h, now, none, none⟩) ∧
    (∀ (ops : List Op) (fa : String) (ta : List String) (su : String) (t0 : ℤ),
      (∀ r, Op.emit r ∉ ops) →
      (exec ops (initSys (mkHandler fa ta su) t0)).sent = [] ∧
      (exec ops (initSys (mkHandler fa ta su) t0)).h.lastSendTime = none) := by
  refine ⟨process_nothing, fun ops fa ta su t0 hops => ?_⟩
  have h := exec_no_emit ops (initSys (mkHandler fa ta su) t0) hops rfl rfl
  exact ⟨h.2.2.1, h.2.2.2⟩

/-- Witness for C7: an idle handler polled once and then shut down
without any record ever enqueued. -/
theorem no_dispatch_without_records_witness :
    _process_recordset .ok h0 5 = ⟨h0, 5, none, none⟩ ∧
    (exec [.runIter .ok, .advance 100, .close .ok] (initSys h0 0)).sent = [] ∧
    (exec [.runIter .ok, .advance 100, .close .ok] (initSys h0 0)).h.lastSendTime
      = none := by
  refine ⟨no_dispatch_without_records.1 .ok h0 5 rfl rfl, ?_, ?_⟩
  · exact (no_dispatch_without_records.2 [.runIter .ok, .advance 100, .close .ok]
      "from@example.com" ["to@example.com"] "subj" 0 (fun r hr => by simp at hr)).1
  · exact (no_dispatch_without_records.2 [.runIter .ok, .advance 100, .close .ok]
      "from@example.com" ["to@example.com"] "subj" 0 (fun r hr => by simp at hr)).2

/-- Claim C2, amended: for a non-empty staging buffer the dispatched
message is the immutable header text followed by the included-records
count, then the pending count ONLY IF it is positive (the line is
omitted when zero), then a blank line and the CRLF-joined record texts.
In the shutdown scenario (twelve records enqueued, less than one poll
interval, shutdown) exactly one batch is dispatched, containing all
twelve records in order, whose message lists 12 included and carries no
pending line (the pending count being zero). -/
theorem dispatcher_message_contract (h : Handler) (hne : h.q ≠ []) :
    (_send_records_from_q .ok h).msg = some (h.header
      ++ ("Included messages: " ++ toString h.q.length ++ "\r\n"
        ++ (if 0 < h.Q.length then
              "Pending messages:  " ++ toString h.Q.length ++ "\r\n"
            else "")
        ++ ("\r\n" ++ String.intercalate "\r\n" h.q))) ∧
    (exec scenarioOps (initSys h0 0)).sent.map
        (fun b => (b.records, occursIn ("Included messages: 12".data) b.msg.data,
          occursIn ("Pending".data) b.msg.data))
      = [(scenarioRecords, true, false)] := by
  constructor
  · unfold _send_records_from_q
    rw [if_neg (by simpa [List.isEmpty_iff] using hne)]
    simp [numPendingMessages, mkBody, String.append_assoc]
  · decide

/-- Witness for C2's amended theorem at a concrete handler with one
staged and one still-queued record (pending line present). -/
theorem dispatcher_message_contract_witness :
    (_send_records_from_q .ok { h0 with Q := ["y"], q := ["x"] }).msg =
      some (({ h0 with Q := ["y"], q := ["x"] } : Handler).header
        ++ ("Included messages: " ++ toString (["x"] : List String).length ++ "\r\n"
          ++ (if 0 < (["y"] : List String).length then
                "Pending messages:  " ++ toString (["y"] : List String).length ++ "\r\n"
              else "")
          ++ ("\r\n" ++ String.intercalate "\r\n" ["x"]))) ∧
    (exec scenarioOps (initSys h0 0)).sent.map
        (fun b => (b.records, occursIn ("Included messages: 12".data) b.msg.data,
          occursIn ("Pending".data) b.msg.data))
      = [(scenarioRecords, true, false)] :=
  dispatcher_message_contract { h0 with Q := ["y"], q := ["x"] } (by decide)

/-- Claim C2, counterexample to the claim as frozen: in the shutdown
scenario exactly one batch with all twelve records is dispatched, but
its message nowhere contains a pending count — the code omits the
'Pending messages' line entirely when the count is zero, so the message
does not "list 0 pending" as the claim asserts for every dispatch. -/
theorem pending_line_omitted_refuted :
    (exec scenarioOps (initSys h0 0)).sent.map
      (fun b => (b.records.length, occursIn ("Pending".data) b.msg.data))
      = [(12, false)] := by decide

/-- Claim C3: `close` sets the handler inactive, shrinks the drain
window to `min(0.25 s, poll_duration_max)`, and synchronously runs one
final drain-and-send cycle, after which the intake queue is empty and
(when there was anything pending at the moment of the call) exactly one
final batch containing precisely those records, in order, has been
dispatched before the call returns. -/
theorem close_flushes (s : Sys) (hpd : 0 < s.h.pollDurationMax) :
    (closeStep .ok s).2 = none ∧
    (closeStep .ok s).1.h.active = false ∧
    (closeStep .ok s).1.h.pollDurationMax = min 25 s.h.pollDurationMax ∧
    (closeStep .ok s).1.h.Q = [] ∧
    (closeStep .ok s).1.h.q = [] ∧
    (s.h.q ++ s.h.Q = [] → (closeStep .ok s).1.sent = s.sent) ∧
    (s.h.q ++ s.h.Q ≠ [] → ∃ b, (closeStep .ok s).1.sent = s.sent ++ [b] ∧
      b.records = s.h.q ++ s.h.Q) := by
  simp only [closeStep]
  rcases process_characterization .ok
      { s.h with active := false, pollDurationMax := min 25 s.h.pollDurationMax }
      s.now (lt_min (by norm_num) hpd) with ⟨hnil, heq⟩ | ⟨hne, now1, hle1, hcase⟩
  · rw [heq]
    dsimp only [Option.toList]
    obtain ⟨hq, hQ⟩ := List.append_eq_nil.mp hnil
    exact ⟨rfl, rfl, rfl, hQ, hq, fun _ => by simp, fun hcon => absurd hnil hcon⟩
  · rcases hcase with ⟨_, heq⟩ | ⟨hbad, _⟩ | ⟨hbad, _⟩
    · rw [heq]
      dsimp only [Option.toList]
      exact ⟨rfl, rfl, rfl, rfl, rfl, fun hcon => absurd hcon hne,
        fun _ => ⟨_, rfl, rfl⟩⟩
    · exact absurd hbad (by simp)
    · exact absurd hbad (by simp)

/-- Witness for C3 at a state holding one queued record. -/
theorem close_flushes_witness :
    (closeStep .ok sampleSys).2 = none ∧
    (closeStep .ok sampleSys).1.h.active = false ∧
    (closeStep .ok sampleSys).1.h.pollDurationMax
      = min 25 sampleSys.h.pollDurationMax ∧
    (closeStep .ok sampleSys).1.h.Q = [] ∧
    (closeStep .ok sampleSys).1.h.q = [] ∧
    (sampleSys.h.q ++ sampleSys.h.Q = [] →
      (closeStep .ok sampleSys).1.sent = sampleSys.sent) ∧
    (sampleSys.h.q ++ sampleSys.h.Q ≠ [] →
      ∃ b, (closeStep .ok sampleSys).1.sent = sampleSys.sent ++ [b] ∧
        b.records = sampleSys.h.q ++ sampleSys.h.Q) :=
  close_flushes sampleSys (by decide)

/-- Claim C4: the scheduler iteration computes `next_send_time` as
`last_send_timestamp + send_interval`; when `now > next_send_time` it
runs one drain-and-send cycle and then sleeps one poll interval,
otherwise it sleeps `max(next_send_time - now, 0)`; and since the
initial `last_send_timestamp` is '-inf' (`none`), the guard fires on the
very first iteration and the intake queue gets drained. -/
theorem scheduler_iteration (s : Sys) (o : SendOutcome)
    (hact : s.h.active = true) (halive : s.workerAlive = true) :
    nextSendTime s.h = s.h.lastSendTime.map (· + s.h.sendInterval) ∧
    (s.h.lastSendTime = none → dueB s.now (nextSendTime s.h) = true) ∧
    (s.h.lastSendTime = none → 0 < s.h.pollDurationMax →
      (runIter o s).1.h.Q = []) ∧
    (dueB s.now (nextSendTime s.h) = true →
      (runIter .ok s).1.now
          = (_process_recordset .ok s.h s.now).now + s.h.pollInterval ∧
      (runIter .ok s).1.sent
          = s.sent ++ (_process_recordset .ok s.h s.now).batch.toList) ∧
    (∀ t, s.h.lastSendTime = some t → dueB s.now (nextSendTime s.h) = false →
      runIter o s = ({ s with now := s.now + max (t + s.h.sendInterval - s.now) 0 },
        none)) := by
  have hcond : (s.h.active && s.workerAlive) = true := by simp [hact, halive]
  refine ⟨rfl, ?_, ?_, ?_, ?_⟩
  · intro hnone
    simp [dueB, nextSendTime, hnone]
  · intro hnone hpd
    have hdue : dueB s.now (nextSendTime s.h) = true := by
      simp [dueB, nextSendTime, hnone]
    simp only [runIter, hcond, if_true, hdue]
    rcases process_characterization o s.h s.now hpd with
      ⟨hnil, heq⟩ | ⟨hne, now1, hle1, hcase⟩
    · rw [heq]
      exact (List.append_eq_nil.mp hnil).2
    · rcases hcase with ⟨_, heq⟩ | ⟨_, heq⟩ | ⟨_, heq⟩ <;> rw [heq]
  · intro hdue
    simp only [runIter, hcond, if_true, hdue]
    rw [process_ok_no_err]
    exact ⟨rfl, rfl⟩
  · intro t ht hfalse
    have : ¬ dueB s.now (nextSendTime s.h) = true := by simp [hfalse]
    simp only [runIter, hcond, if_true, if_neg this]
    have hsleep : sleepFor s.now (nextSendTime s.h)
        = max (t + s.h.sendInterval - s.now) 0 := by
      simp [sleepFor, nextSendTime, ht]
    rw [hsleep]

/-- Witness for C4: the fresh-handler state with one queued record (the
first iteration drains and dispatches) and a state whose next send is
not yet due (the iteration just sleeps until it is). -/
theorem scheduler_iteration_witness :
    (sampleSys.h.lastSendTime = none →
      dueB sampleSys.now (nextSendTime sampleSys.h) = true) ∧
    (sampleSys.h.lastSendTime = none → 0 < sampleSys.h.pollDurationMax →
      (runIter .ok sampleSys).1.h.Q = []) ∧
    (dueB sampleSys.now (nextSendTime sampleSys.h) = true →
      (runIter .ok sampleSys).1.now
          = (_process_recordset .ok sampleSys.h sampleSys.now).now
            + sampleSys.h.pollInterval ∧
      (runIter .ok sampleSys).1.sent
          = sampleSys.sent
            ++ (_process_recordset .ok sampleSys.h sampleSys.now).batch.toList) ∧
    (∀ t, sampleLate.h.lastSendTime = some t →
      dueB sampleLate.now (nextSendTime sampleLate.h) = false →
      runIter .ok sampleLate =
        ({ sampleLate with
            now := sampleLate.now + max (t + sampleLate.h.sendInterval - sampleLate.now) 0 },
          none)) :=
  ⟨(scheduler_iteration sampleSys .ok (by decide) (by decide)).2.1,
   (scheduler_iteration sampleSys .ok (by decide) (by decide)).2.2.1,
   (scheduler_iteration sampleSys .ok (by decide) (by decide)).2.2.2.1,
   (scheduler_iteration sampleLate .ok (by decide) (by decide)).2.2.2.2⟩

/-- Claim C5: over any single operation and any sequence of operations
on a well-formed state, `_LAST_SEND_TIME` is monotonically
non-decreasing, and it changes only by being set to the dispatch time of
a non-empty batch that was just successfully handed to the transport —
every other operation leaves both the timestamp and the dispatch log
untouched. -/
theorem lastSend_update_discipline :
    (∀ (op : Op) (s : Sys), sysWF s →
      ((step op s).1.h.lastSendTime = s.h.lastSendTime ∧
        (step op s).1.sent = s.sent) ∨
      ∃ b, (step op s).1.sent = s.sent ++ [b] ∧ b.records ≠ [] ∧
        (step op s).1.h.lastSendTime = some b.time ∧ s.now ≤ b.time) ∧
    (∀ (op : Op) (s : Sys), sysWF s →
      optLEb s.h.lastSendTime (step op s).1.h.lastSendTime = true) ∧
    (∀ (ops : List Op) (s : Sys), sysWF s →
      optLEb s.h.lastSendTime (exec ops s).h.lastSendTime = true) :=
  ⟨fun op s hwf => (step_cases op s hwf).2.2.1,
   fun op s hwf => (step_cases op s hwf).2.2.2,
   fun ops s hwf => (exec_wf_mono ops s hwf).2⟩

/-- Witness for C5: a `close` on a state with one queued record, and a
short execution from the same state. -/
theorem lastSend_update_discipline_witness :
    (((step (.close .ok) sampleSys).1.h.lastSendTime = sampleSys.h.lastSendTime ∧
        (step (.close .ok) sampleSys).1.sent = sampleSys.sent) ∨
      ∃ b, (step (.close .ok) sampleSys).1.sent = sampleSys.sent ++ [b] ∧
        b.records ≠ [] ∧
        (step (.close .ok) sampleSys).1.h.lastSendTime = some b.time ∧
        sampleSys.now ≤ b.time) ∧
    optLEb sampleSys.h.lastSendTime
      (exec [.emit "b", .runIter .ok] sampleSys).h.lastSendTime = true :=
  ⟨lastSend_update_discipline.1 (.close .ok) sampleSys
      ⟨fun t ht => Option.noConfusion ht, by decide, by decide⟩,
   lastSend_update_discipline.2.2 [.emit "b", .runIter .ok] sampleSys
      ⟨fun t ht => Option.noConfusion ht, by decide, by decide⟩⟩

/-- Claim C6: a transport failure is not caught — the error escapes the
scheduler iteration, the worker thread dies, `_LAST_SEND_TIME` is not
updated, nothing is recorded as dispatched, and the already-drained
records are gone from both queues (not requeued); whereas a
process-level interruption during the cycle is caught and treated as a
graceful stop of the cycle: no exception escapes, no batch failure is
recorded, the timestamp is untouched, and the worker survives. -/
theorem transport_error_propagation (s : Sys)
    (hact : s.h.active = true) (halive : s.workerAlive = true)
    (hdue : dueB s.now (nextSendTime s.h) = true)
    (hpd : 0 < s.h.pollDurationMax) (hne : s.h.q ++ s.h.Q ≠ []) :
    ((runIter .transportFail s).2 = some .transport ∧
      (runIter .transportFail s).1.h.lastSendTime = s.h.lastSendTime ∧
      (runIter .transportFail s).1.sent = s.sent ∧
      (runIter .transportFail s).1.h.Q = [] ∧
      (runIter .transportFail s).1.h.q = [] ∧
      (runIter .transportFail s).1.workerAlive = false) ∧
    ((runIter .interrupted s).2 = none ∧
      (runIter .interrupted s).1.h.lastSendTime = s.h.lastSendTime ∧
      (runIter .interrupted s).1.sent = s.sent ∧
      (runIter .interrupted s).1.workerAlive = s.workerAlive) := by
  have hcond : (s.h.active && s.workerAlive) = true := by simp [hact, halive]
  constructor
  · obtain ⟨now1, hle, heq⟩ := process_transportFail s.h s.now (Or.inl hpd) hne
    simp [runIter, hcond, hdue, heq]
  · obtain ⟨now1, hle, heq⟩ := process_interrupted s.h s.now (Or.inl hpd) hne
    simp [runIter, hcond, hdue, heq]

/-- Witness for C6 at the one-record sample state. -/
theorem transport_error_propagation_witness :
    ((runIter .transportFail sampleSys).2 = some .transport ∧
      (runIter .transportFail sampleSys).1.h.lastSendTime
        = sampleSys.h.lastSendTime ∧
      (runIter .transportFail sampleSys).1.sent = sampleSys.sent ∧
      (runIter .transportFail sampleSys).1.h.Q = [] ∧
      (runIter .transportFail sampleSys).1.h.q = [] ∧
      (runIter .transportFail sampleSys).1.workerAlive = false) ∧
    ((runIter .interrupted sampleSys).2 = none ∧
      (runIter .interrupted sampleSys).1.h.lastSendTime
        = sampleSys.h.lastSendTime ∧
      (runIter .interrupted sampleSys).1.sent = sampleSys.sent ∧
      (runIter .interrupted sampleSys).1.workerAlive = sampleSys.workerAlive) :=
  transport_error_propagation sampleSys (by decide) (by decide) (by decide)
    (by decide) (by decide)

/-- Claim C8, amended: a dispatch performed by a SCHEDULER iteration
happens strictly later than `last_send_timestamp + send_interval`, hence
(for a non-negative poll interval) at least `send_interval` minus one
`poll_interval` after the previous dispatch; the shutdown-forced
dispatch of `close` is not subject to this spacing and may follow the
previous dispatch arbitrarily closely. -/
theorem scheduler_dispatch_spacing (s : Sys) (o : SendOutcome) (t : ℤ) (b : Batch)
    (hlast : s.h.lastSendTime = some t) (hpi : 0 ≤ s.h.pollInterval)
    (hsent : (runIter o s).1.sent = s.sent ++ [b]) :
    t + s.h.sendInterval < b.time ∧
    s.h.sendInterval - s.h.pollInterval ≤ b.time - t := by
  have hkey : (_process_recordset o s.h s.now).batch = some b ∧
      dueB s.now (nextSendTime s.h) = true := by
    by_cases hcond : (s.h.active && s.workerAlive) = true
    · by_cases hdue : dueB s.now (nextSendTime s.h) = true
      · simp only [runIter, hcond, if_true, hdue] at hsent
        cases he : (_process_recordset o s.h s.now).err with
        | some e =>
          rw [he] at hsent
          cases e <;> dsimp only at hsent <;>
            exact absurd (congrArg List.length hsent) (by simp)
        | none =>
          rw [he] at hsent
          dsimp only at hsent
          have hlist := List.append_cancel_left hsent
          cases hb : (_process_recordset o s.h s.now).batch with
          | none =>
            rw [hb] at hlist
            exact absurd hlist (by simp)
          | some b' =>
            rw [hb] at hlist
            simp only [Option.toList, List.cons.injEq, and_true] at hlist
            exact ⟨by rw [hlist], hdue⟩
      · simp only [runIter, hcond, if_true, if_neg hdue] at hsent
        exact absurd (congrArg List.length hsent) (by simp)
    · simp only [runIter, if_neg hcond] at hsent
      exact absurd (congrArg List.length hsent) (by simp)
  have hbt := (process_batch_time o s.h s.now b hkey.1).1
  have hlt : t + s.h.sendInterval < s.now := by
    have := hkey.2
    simp [dueB, nextSendTime, hlast] at this
    omega
  exact ⟨by omega, by omega⟩

/-- Witness for C8's amended theorem: a second scheduler dispatch after
the send interval has fully elapsed. -/
theorem scheduler_dispatch_spacing_witness :
    (1000 : ℤ)
        + (exec [.emit "a", .runIter .ok, .emit "b", .advance 12000]
            (initSys h0 0)).h.sendInterval
      < ((runIter .ok (exec [.emit "a", .runIter .ok, .emit "b", .advance 12000]
            (initSys h0 0))).1.sent.getLastD ⟨0, [], ""⟩).time ∧
    (exec [.emit "a", .runIter .ok, .emit "b", .advance 12000]
          (initSys h0 0)).h.sendInterval
        - (exec [.emit "a", .runIter .ok, .emit "b", .advance 12000]
            (initSys h0 0)).h.pollInterval
      ≤ ((runIter .ok (exec [.emit "a", .runIter .ok, .emit "b", .advance 12000]
            (initSys h0 0))).1.sent.getLastD ⟨0, [], ""⟩).time - 1000 :=
  scheduler_dispatch_spacing
    (exec [.emit "a", .runIter .ok, .emit "b", .advance 12000] (initSys h0 0))
    .ok 1000
    ((runIter .ok (exec [.emit "a", .runIter .ok, .emit "b", .advance 12000]
        (initSys h0 0))).1.sent.getLastD ⟨0, [], ""⟩)
    (by decide) (by decide) (by decide)

/-- Claim C8, counterexample to the claim as frozen: after a scheduler
dispatch at tick 1000, one more record is enqueued and `close` is called;
the shutdown-forced dispatch happens at tick 1530, only 5.3 s after the
previous dispatch — far less than `send_interval` minus one
`poll_interval` (115 s = 11500 ticks). -/
theorem dispatch_spacing_refuted :
    (exec [.emit "a", .runIter .ok, .emit "b", .close .ok]
        (initSys h0 0)).sent.map (fun b => b.time) = [1000, 1530] ∧
    ((1530 : ℤ) - 1000 < 12000 - 500) :=
  ⟨by decide, by decide⟩

/-- Claim C9, amended: `state()` mutates nothing and raises nothing, and
reports as pending exactly the sum of the two queue sizes; over any
execution whose send attempts all succeed this equals (hence is at
least) the number of records enqueued but not yet dispatched.  (After a
failed send attempt the drained records are lost and the reported count
can undercount, refuting the unconditional claim.) -/
theorem state_snapshot_properties :
    (∀ s : Sys, step .stateCall s = (s, none)) ∧
    (∀ s : Sys, (state s).numUnprocessed = s.h.Q.length + s.h.q.length) ∧
    (∀ (ops : List Op) (fa : String) (ta : List String) (su : String) (t0 : ℤ),
      (∀ op ∈ ops, cleanOp op = true) →
      (state (exec ops (initSys (mkHandler fa ta su) t0))).numUnprocessed
          + dispatchedCount (exec ops (initSys (mkHandler fa ta su) t0))
        = (exec ops (initSys (mkHandler fa ta su) t0)).enqueued ∧
      (exec ops (initSys (mkHandler fa ta su) t0)).enqueued
          - dispatchedCount (exec ops (initSys (mkHandler fa ta su) t0))
        ≤ (state (exec ops (initSys (mkHandler fa ta su) t0))).numUnprocessed) := by
  refine ⟨fun s => rfl, fun s => rfl, fun ops fa ta su t0 hops => ?_⟩
  have hwf : sysWF (initSys (mkHandler fa ta su) t0) :=
    ⟨fun t ht => Option.noConfusion ht, by norm_num [initSys, mkHandler],
      by norm_num [initSys, mkHandler]⟩
  have hc := exec_conservation ops (initSys (mkHandler fa ta su) t0) hops hwf rfl
  have hstate : (state (exec ops (initSys (mkHandler fa ta su) t0))).numUnprocessed
      = (exec ops (initSys (mkHandler fa ta su) t0)).h.Q.length
        + (exec ops (initSys (mkHandler fa ta su) t0)).h.q.length := rfl
  constructor
  · omega
  · omega

/-- Witness for C9's amended theorem on the clean shutdown scenario. -/
theorem state_snapshot_properties_witness :
    (state (exec scenarioOps (initSys (mkHandler "f" ["t"] "s") 0))).numUnprocessed
        + dispatchedCount (exec scenarioOps (initSys (mkHandler "f" ["t"] "s") 0))
      = (exec scenarioOps (initSys (mkHandler "f" ["t"] "s") 0)).enqueued ∧
    (exec scenarioOps (initSys (mkHandler "f" ["t"] "s") 0)).enqueued
        - dispatchedCount (exec scenarioOps (initSys (mkHandler "f" ["t"] "s") 0))
      ≤ (state (exec scenarioOps (initSys (mkHandler "f" ["t"] "s") 0))).numUnprocessed :=
  state_snapshot_properties.2.2 scenarioOps "f" ["t"] "s" 0 (by decide)

/-- Claim C9, counterexample to the claim as frozen: one record is
enqueued and the first scheduler cycle fails in the transport; the
drained record is lost, so `state()` reports 0 pending while 1 record
has been enqueued and 0 dispatched — the reported count is NOT at least
the number of records enqueued but not yet dispatched. -/
theorem state_pending_undercount_refuted :
    (state (exec [.emit "a", .runIter .transportFail] (initSys h0 0))).numUnprocessed
        + dispatchedCount (exec [.emit "a", .runIter .transportFail] (initSys h0 0))
      < (exec [.emit "a", .runIter .transportFail] (initSys h0 0)).enqueued := by
  decide

end SMTPBufLog


